import Mathlib

set_option linter.unusedVariables false

/-!
Shallow embedding of the `model-proxy` caching reverse proxy.

Go strings and byte slices are byte sequences; both are modelled as `List Nat`
(each element a byte value).  Machine words inside SHA-256 are `Nat` reduced
explicitly modulo `2^32`.  Fallible Go code (`(T, error)` returns) is modelled
with `Except` / `Option`.
-/

namespace ModelProxy

/-- Byte sequences: Go `[]byte` and Go `string` values alike. -/
abbrev Bytes := List Nat

/-! ## SHA-256 (`crypto/sha256`) and hex encoding (`encoding/hex`)

`generateCacheKey` hashes its input with SHA-256 and hex-encodes the digest.
This is a complete executable model of the FIPS 180-4 algorithm over byte
lists, with 32-bit words represented as `Nat` taken modulo `2^32`. -/

namespace SHA256

/-- `2^32`, the word modulus. -/
def M32 : Nat := 4294967296

/-- Right rotation of a 32-bit word. -/
def rotr (x n : Nat) : Nat := ((x >>> n) ||| (x <<< (32 - n))) % M32

/-- Σ₀ compression function. -/
def bigS0 (x : Nat) : Nat := rotr x 2 ^^^ rotr x 13 ^^^ rotr x 22

/-- Σ₁ compression function. -/
def bigS1 (x : Nat) : Nat := rotr x 6 ^^^ rotr x 11 ^^^ rotr x 25

/-- σ₀ message-schedule function. -/
def smallS0 (x : Nat) : Nat := rotr x 7 ^^^ rotr x 18 ^^^ (x >>> 3)

/-- σ₁ message-schedule function. -/
def smallS1 (x : Nat) : Nat := rotr x 17 ^^^ rotr x 19 ^^^ (x >>> 10)

/-- Choice function `Ch(e,f,g)`; `¬e` is the 32-bit complement. -/
def ch (e f g : Nat) : Nat := (e &&& f) ^^^ ((4294967295 ^^^ e) &&& g)

/-- Majority function `Maj(a,b,c)`. -/
def maj (a b c : Nat) : Nat := (a &&& b) ^^^ (a &&& c) ^^^ (b &&& c)

/-- The 64 round constants (FIPS 180-4 §4.2.2, written in decimal). -/
def K : List Nat :=
  [1116352408, 1899447441, 3049323471, 3921009573, 961987163,
   1508970993, 2453635748, 2870763221, 3624381080, 310598401,
   607225278, 1426881987, 1925078388, 2162078206, 2614888103,
   3248222580, 3835390401, 4022224774, 264347078, 604807628,
   770255983, 1249150122, 1555081692, 1996064986, 2554220882,
   2821834349, 2952996808, 3210313671, 3336571891, 3584528711,
   113926993, 338241895, 666307205, 773529912, 1294757372,
   1396182291, 1695183700, 1986661051, 2177026350, 2456956037,
   2730485921, 2820302411, 3259730800, 3345764771, 3516065817,
   3600352804, 4094571909, 275423344, 430227734, 506948616,
   659060556, 883997877, 958139571, 1322822218, 1537002063,
   1747873779, 1955562222, 2024104815, 2227730452, 2361852424,
   2428436474, 2756734187, 3204031479, 3329325298]

/-- The initial hash state (FIPS 180-4 §5.3.3, written in decimal). -/
def H0 : List Nat :=
  [1779033703, 3144134277, 1013904242, 2773480762,
   1359893119, 2600822924, 528734635, 1541459225]

/-- FIPS 180-4 padding: `0x80`, zeros to 56 mod 64, then the 64-bit
big-endian bit length. -/
def pad (msg : Bytes) : Bytes :=
  let n := msg.length
  let z := (119 - n % 64) % 64
  let L := 8 * n
  msg ++ [0x80] ++ List.replicate z 0 ++
    [(L >>> 56) % 256, (L >>> 48) % 256, (L >>> 40) % 256, (L >>> 32) % 256,
     (L >>> 24) % 256, (L >>> 16) % 256, (L >>> 8) % 256, L % 256]

/-- Big-endian 32-bit words from a byte sequence (length a multiple of 4). -/
def wordsOf : Bytes → List Nat
  | a :: b :: c :: d :: rest => ((a <<< 24) + (b <<< 16) + (c <<< 8) + d) :: wordsOf rest
  | _ => []

/-- Split a word sequence into blocks of 16 words. -/
def blocksOf (ws : List Nat) : List (List Nat) :=
  if h : ws = [] then [] else ws.take 16 :: blocksOf (ws.drop 16)
termination_by ws.length
decreasing_by
  simp only [List.length_drop]
  have : 0 < ws.length := List.length_pos.mpr h
  omega

/-- Extend the message schedule by `k` further words. -/
def extendLoop : Nat → List Nat → List Nat
  | 0, ws => ws
  | k + 1, ws =>
      extendLoop k (ws ++
        [(ws.getD (ws.length - 16) 0 + smallS0 (ws.getD (ws.length - 15) 0) +
          ws.getD (ws.length - 7) 0 + smallS1 (ws.getD (ws.length - 2) 0)) % M32])

/-- The 64-word message schedule of one block. -/
def schedule (block : List Nat) : List Nat := extendLoop 48 block

/-- One compression round; the state is the list `[a,b,c,d,e,f,g,h]`. -/
def round (st : List Nat) (kw : Nat × Nat) : List Nat :=
  match st with
  | [a, b, c, d, e, f, g, h] =>
      let t1 := (h + bigS1 e + ch e f g + kw.1 + kw.2) % M32
      let t2 := (bigS0 a + maj a b c) % M32
      [(t1 + t2) % M32, a, b, c, (d + t1) % M32, e, f, g]
  | other => other

/-- Compress one 16-word block into the hash state. -/
def compressBlock (hs : List Nat) (block : List Nat) : List Nat :=
  let st := (K.zip (schedule block)).foldl round hs
  (hs.zip st).map (fun p => (p.1 + p.2) % M32)

/-- Big-endian bytes of a 32-bit word. -/
def word32ToBytes (w : Nat) : Bytes :=
  [(w >>> 24) % 256, (w >>> 16) % 256, (w >>> 8) % 256, w % 256]

/-- `sha256.Sum256`: the 32-byte SHA-256 digest of a message. -/
def sum256 (msg : Bytes) : Bytes :=
  ((blocksOf (wordsOf (pad msg))).foldl compressBlock H0).flatMap word32ToBytes

end SHA256

/-- Lowercase hex digit (as an ASCII byte) of a value below 16. -/
def hexDigitByte (n : Nat) : Nat := if n < 10 then 48 + n else 87 + n

/-- `hex.EncodeToString`: two lowercase hex digits per byte (Go strings are
byte sequences, so the result is again `Bytes`). -/
def hexEncode (bs : Bytes) : Bytes :=
  bs.flatMap (fun b => [hexDigitByte (b / 16), hexDigitByte (b % 16)])

/-! ## Requests and cache-key derivation (`generateCacheKey`, src/main.go) -/

/-- The parts of an inbound request that `generateCacheKey` reads:
`r.Header.Get("Authorization")`, `r.URL.Path` and the request body bytes. -/
structure Request where
  authorization : Bytes
  path : Bytes
  body : Bytes
deriving DecidableEq

/-- The byte stream fed to the hash, in the source's order: the bearer token
if non-empty (writing nothing otherwise), then the path, then the body. -/
def hashInput (authorization path body : Bytes) : Bytes :=
  (if authorization = [] then [] else authorization) ++ path ++ body

/-- `generateCacheKey` (src/main.go): hex-encoded SHA-256 of the hash input.
In the source it can also fail when reading the body fails; the body is an
in-memory byte sequence here, so derivation is total. -/
def generateCacheKey (r : Request) : Bytes :=
  hexEncode (SHA256.sum256 (hashInput r.authorization r.path r.body))

/-! ## Response cache and stream pipe (src/cache/response-cache.go) -/

namespace cache

/-- `StreamResponse`: the chunk pipe.  The Go object holds a buffered channel
and a `closed` flag; the channel's FIFO content is the `buffer` list.  The
channel capacity only governs producer blocking, never the stored sequence,
so it does not appear in the state. -/
structure StreamResponse where
  buffer : List Bytes
  closed : Bool
deriving DecidableEq

/-- `NewStreamResponse`: open pipe with an empty buffer. -/
def NewStreamResponse (bufferSize : Nat) : StreamResponse :=
  { buffer := [], closed := false }

/-- `WriteChunk`: under the lock, return if closed, otherwise enqueue. -/
def StreamResponse.WriteChunk (sr : StreamResponse) (chunk : Bytes) : StreamResponse :=
  if sr.closed then sr else { sr with buffer := sr.buffer ++ [chunk] }

/-- `Close`: under the lock, close the channel once; idempotent. -/
def StreamResponse.Close (sr : StreamResponse) : StreamResponse :=
  if sr.closed then sr else { sr with closed := true }

/-- Draining `ReadChunks()`: ranging over the channel yields the buffered
chunks in FIFO order and terminates once the channel is closed and empty;
while the pipe is open the range does not terminate, hence `none`. -/
def StreamResponse.drain (sr : StreamResponse) : Option (List Bytes) :=
  if sr.closed then some sr.buffer else none

/-- A producer-side operation on a `StreamResponse`. -/
inductive StreamOp
  | write (chunk : Bytes)
  | close
deriving DecidableEq

/-- Apply one producer operation. -/
def applyOp (sr : StreamResponse) : StreamOp → StreamResponse
  | .write c => sr.WriteChunk c
  | .close => sr.Close

/-- Run a producer history against a fresh pipe. -/
def runOps (bufferSize : Nat) (ops : List StreamOp) : StreamResponse :=
  ops.foldl applyOp (NewStreamResponse bufferSize)

/-- The chunks written before the first `close` of a history, in order. -/
def openWrites : List StreamOp → List Bytes
  | [] => []
  | .write c :: rest => c :: openWrites rest
  | .close :: _ => []

/-- Whether a history contains a `close`. -/
def isClose : StreamOp → Bool
  | .close => true
  | _ => false

/-- `ResponseCache` (src/cache/response-cache.go): two maps over the shared
key space, one for buffered bodies and one for stream pipes. -/
structure ResponseCache where
  nonStreams : Bytes → Option Bytes
  streams : Bytes → Option StreamResponse

/-- `NewResponseCache`: both maps empty. -/
def NewResponseCache : ResponseCache :=
  { nonStreams := fun _ => none, streams := fun _ => none }

/-- `Set`: store a non-streaming response (insert or overwrite). -/
def ResponseCache.Set (c : ResponseCache) (key : Bytes) (value : Bytes) : ResponseCache :=
  { c with nonStreams := fun k => if k = key then some value else c.nonStreams k }

/-- `SetStream`: register a fresh pipe under the key and hand it back. -/
def ResponseCache.SetStream (c : ResponseCache) (key : Bytes) (bufferSize : Nat) :
    ResponseCache × StreamResponse :=
  let stream := NewStreamResponse bufferSize
  ({ c with streams := fun k => if k = key then some stream else c.streams k }, stream)

/-- `Get`: comma-ok lookup in the non-stream map. -/
def ResponseCache.Get (c : ResponseCache) (key : Bytes) : Option Bytes :=
  c.nonStreams key

/-- `GetStream`: comma-ok lookup in the stream map. -/
def ResponseCache.GetStream (c : ResponseCache) (key : Bytes) : Option StreamResponse :=
  c.streams key

end cache

/-! ## HTTP headers (`http.Header`, a map from name to list of values) -/

/-- Header map, modelled as an association list with unique keys. -/
abbrev Headers := List (String × List String)

/-- Lookup of all values of a header; `[]` when absent. -/
def hget : Headers → String → List String
  | [], _ => []
  | (k', vs) :: rest, k => if k' = k then vs else hget rest k

/-- Drop a key from the map. -/
def herase : Headers → String → Headers
  | [], _ => []
  | p :: rest, k => if p.1 = k then herase rest k else p :: herase rest k

/-- `Header.Set`: replace all values of a key by one value. -/
def hset (h : Headers) (k v : String) : Headers :=
  (k, [v]) :: herase h k

/-- `Header.Add`: append one value to a key. -/
def hadd (h : Headers) (k v : String) : Headers :=
  (k, hget h k ++ [v]) :: herase h k

/-- `Header.Get`: first value of a key, `""` when absent. -/
def hGetFirst (h : Headers) (k : String) : String :=
  (hget h k).headD ""

/-- Add every (key, value) pair of `src` into `w`, as the hit branch's nested
`for key, values / for value` loop over the cached headers does. -/
def addAll (w src : Headers) : Headers :=
  src.foldl (fun acc kv => kv.2.foldl (fun a v => hadd a kv.1 v) acc) w

/-! ## The dispatcher (the `http.HandleFunc` closure in src/main.go)

src/main.go stores and retrieves entries carrying both body and headers
(`cache.Set(cacheKey, responseBody, headers)`, `cacheEntry.Body`,
`cacheEntry.Headers`); the cache source under src/ only has the
body-only variant above, so the entry-carrying cache is modelled from the
spec here. -/

/-- Modelled from the spec: `CacheEntry`, the buffered-entry value missing
from src/ — spec §3: "CacheEntry: \x7bbody: byte sequence, headers: ordered
multimap of string→string\x7d. Immutable once stored." -/
structure CacheEntry where
  body : Bytes
  headers : Headers

/-- Modelled from the spec: the dispatcher's response cache, whose buffered
map holds `CacheEntry` values (spec §3/§4.2); the stream map is as in
src/cache/response-cache.go. -/
structure EntryCache where
  nonStreams : Bytes → Option CacheEntry
  streams : Bytes → Option cache.StreamResponse

/-- Fresh dispatcher cache: both maps empty. -/
def NewEntryCache : EntryCache :=
  { nonStreams := fun _ => none, streams := fun _ => none }

/-- Modelled from the spec: `set(key, body, headers)` inserts or overwrites a
buffered entry (spec §4.2, overwrite semantics). -/
def EntryCache.set (c : EntryCache) (key : Bytes) (entry : CacheEntry) : EntryCache :=
  { c with nonStreams := fun k => if k = key then some entry else c.nonStreams k }

/-- `get(key)`: comma-ok lookup of a buffered entry. -/
def EntryCache.get (c : EntryCache) (key : Bytes) : Option CacheEntry :=
  c.nonStreams key

/-- `getStream(key)`: comma-ok lookup of a stream pipe. -/
def EntryCache.getStream (c : EntryCache) (key : Bytes) : Option cache.StreamResponse :=
  c.streams key

/-- Go error values relevant here: `io.EOF` and any other error. -/
inductive GoErr
  | eof
  | other
deriving DecidableEq

/-- `io.ReadAll` looping over `bytes.Buffer.Read`: the buffer delivers up to
512 bytes per read and reports `io.EOF` (only) once empty, which `ReadAll`
converts into a successful return. -/
def ioReadAllLoop (b : Bytes) (acc : Bytes) : Except GoErr Bytes :=
  if h : b = [] then .ok acc
  else ioReadAllLoop (b.drop 512) (acc ++ b.take 512)
termination_by b.length
decreasing_by
  simp only [List.length_drop]
  have : 0 < b.length := List.length_pos.mpr h
  omega

/-- `io.ReadAll(rec.Body)` over the recorder's in-memory buffer. -/
def ioReadAll (b : Bytes) : Except GoErr Bytes :=
  ioReadAllLoop b []

/-- What `proxy.ServeHTTP(rec, r)` leaves in the `httptest` recorder: the
upstream response's status code, headers and body bytes. -/
structure UpstreamResponse where
  Code : Nat
  Headers : Headers
  Body : Bytes

/-- The response the handler writes downstream, plus two ghost observations:
whether `proxy.ServeHTTP` ran (the upstream was invoked) and whether the
body-read error branch ran (the only line setting `model-proxy-cache: miss`).
A `Write` without a prior `WriteHeader` implies status 200. -/
structure HandlerResponse where
  status : Nat
  headers : Headers
  body : Bytes
  usedUpstream : Bool
  setMissHeader : Bool

/-- The headers the miss path stores alongside the body: `Content-Type` and
`Content-Encoding` of the recorded response, each only when present. -/
def cachedHeaders (recHeaders : Headers) : Headers :=
  let h0 : Headers := []
  let ct := hGetFirst recHeaders "Content-Type"
  let h1 := if ct = "" then h0 else hset h0 "Content-Type" ct
  let ce := hGetFirst recHeaders "Content-Encoding"
  if ce = "" then h1 else hset h1 "Content-Encoding" ce

/-- Headers written by `http.Error` for the 400 path. -/
def errorHeaders : Headers :=
  hset (hset [] "Content-Type" "text/plain; charset=utf-8")
    "X-Content-Type-Options" "nosniff"

/-- One dispatcher invocation (the handler closure in src/main.go).
`proxyErr` is the outcome of `GetReverseProxy` (JSON decoding, model lookup);
`up` is what the proxied upstream would write into the recorder, consumed
only on the miss path.  Key derivation is total here (in-memory body), so
the 500 branch for a failed `generateCacheKey` is omitted. -/
def handle (c : EntryCache) (r : Request) (proxyErr : Option Bytes)
    (up : UpstreamResponse) : EntryCache × HandlerResponse :=
  match proxyErr with
  | some msg =>
      -- http.Error(w, err.Error(), http.StatusBadRequest)
      (c, { status := 400, headers := errorHeaders, body := msg ++ [10],
            usedUpstream := false, setMissHeader := false })
  | none =>
      let cacheKey := generateCacheKey r
      match EntryCache.get c cacheKey with
      | some cacheEntry =>
          -- buffered hit: set the hit marker, add the cached headers, write
          -- the body (no WriteHeader call, hence status 200); the Brotli
          -- decompression in this branch only feeds a log line
          (c, { status := 200,
                headers := addAll (hset [] "model-proxy-cache" "hit") cacheEntry.headers,
                body := cacheEntry.body,
                usedUpstream := false, setMissHeader := false })
      | none =>
      match EntryCache.getStream c cacheKey with
      | some streamCache =>
          -- stream hit: set the hit marker and range over the pipe's chunks
          -- (the range finishes once the pipe is closed and drained)
          (c, { status := 200,
                headers := hset [] "model-proxy-cache" "hit",
                body := streamCache.buffer.flatMap id,
                usedUpstream := false, setMissHeader := false })
      | none =>
      -- miss: proxy into the recorder, then read the recorded body back
      match ioReadAll up.Body with
      | .error _ =>
          -- dead branch (proved below): sets the only `miss` marker
          (c, { status := up.Code,
                headers := hset (hset (hset [] "Content-Type" "application/json")
                  "Content-Encoding" "br") "model-proxy-cache" "miss",
                body := [],
                usedUpstream := true, setMissHeader := true })
      | .ok responseBody =>
          let c' := if 200 ≤ up.Code ∧ up.Code < 300 then
              EntryCache.set c cacheKey
                { body := responseBody, headers := cachedHeaders up.Headers }
            else c
          (c', { status := up.Code, headers := up.Headers, body := responseBody,
                 usedUpstream := true, setMissHeader := false })

/-- One inbound request together with its environment. -/
structure HandlerInput where
  req : Request
  proxyErr : Option Bytes
  up : UpstreamResponse

/-- Cache evolution of one dispatcher invocation. -/
def handleStep (c : EntryCache) (i : HandlerInput) : EntryCache :=
  (handle c i.req i.proxyErr i.up).1

/-- Cache state after serving a sequence of requests from process start. -/
def runHandlers (inputs : List HandlerInput) : EntryCache :=
  inputs.foldl handleStep NewEntryCache

/-! ## The streaming transport interceptor (`sseTransport`, src/main.go) -/

/-- An upstream response body: the chunk sequence its reads will deliver and
whether its dynamic type also implements `http.Flusher` (the target of the
`resp.Body.(http.Flusher)` type assertion). -/
structure UpstreamBody where
  chunks : List Bytes
  isFlusher : Bool
deriving DecidableEq

/-- An upstream response as seen by `RoundTrip` (only the body matters for
the interceptor). -/
structure TransportResponse where
  body : UpstreamBody
deriving DecidableEq

/-- The body of the response `RoundTrip` passes up the chain: either the
original body, or the original body wrapped in `sseReader` whose `flusher`
field is that same body (not the downstream response writer). -/
inductive WrappedBody
  | plain (b : UpstreamBody)
  | sse (b : UpstreamBody)
deriving DecidableEq

/-- `sseTransport.RoundTrip`: perform the inner round trip; on an
event-stream request, type-assert `http.Flusher` on the response body,
failing with `io.EOF` when the assertion fails, and otherwise wrap the body
in `sseReader`.  No downstream writer is available to (or consulted by)
this function. -/
def RoundTrip (inner : Except GoErr TransportResponse) (accept : String) :
    Except GoErr WrappedBody :=
  match inner with
  | .error e => .error e
  | .ok resp =>
      if accept = "text/event-stream" then
        if resp.body.isFlusher then .ok (.sse resp.body) else .error .eof
      else .ok (.plain resp.body)

/-! ## Concrete scenario inputs used by closed statements -/

/-- Replay scenario request: no credential, path `/`, body `hi`. -/
def replayReq : Request := ⟨[], [47], [104, 105]⟩

/-- Replay scenario upstream response: status 201 with an extra header. -/
def replayUp : UpstreamResponse := ⟨201, [("X-Foo", ["bar"])], [111, 107]⟩

/-- First dispatcher invocation of the replay scenario (cache miss). -/
def replayOnce : EntryCache × HandlerResponse :=
  handle NewEntryCache replayReq none replayUp

/-- Second, identical dispatcher invocation (cache hit). -/
def replayTwice : EntryCache × HandlerResponse :=
  handle replayOnce.1 replayReq none replayUp

/-! ## Helper lemmas -/

/-- The optional credential write contributes exactly the credential bytes. -/
theorem hashInput_eq_append (a p b : Bytes) : hashInput a p b = a ++ p ++ b := by
  unfold hashInput
  split <;> simp_all

/-- `ioReadAllLoop` always succeeds, returning everything left in the buffer. -/
theorem ioReadAllLoop_ok (n : Nat) : ∀ (b acc : Bytes), b.length ≤ n →
    ioReadAllLoop b acc = .ok (acc ++ b) := by
  induction n with
  | zero =>
      intro b acc hb
      have hbe : b = [] := List.eq_nil_of_length_eq_zero (Nat.le_zero.mp hb)
      subst hbe
      rw [ioReadAllLoop]
      simp
  | succ n ih =>
      intro b acc hb
      rw [ioReadAllLoop]
      by_cases hbe : b = []
      · simp [hbe]
      · rw [dif_neg hbe, ih (b.drop 512) (acc ++ b.take 512) ?_,
          List.append_assoc, List.take_append_drop]
        have hpos : 0 < b.length := List.length_pos.mpr hbe
        simp only [List.length_drop]
        omega

/-- `io.ReadAll` over the recorder's in-memory buffer can only succeed. -/
theorem ioReadAll_ok (b : Bytes) : ioReadAll b = .ok b := by
  unfold ioReadAll
  simpa using ioReadAllLoop_ok b.length b [] le_rfl

/-- Buffered lookup immediately after `set` at the same key. -/
theorem EntryCache.get_set_self (c : EntryCache) (k : Bytes) (e : CacheEntry) :
    (c.set k e).get k = some e := by
  simp [EntryCache.set, EntryCache.get]

/-- Evaluation of the dispatcher on the miss path. -/
theorem handle_miss_eq (c : EntryCache) (r : Request) (up : UpstreamResponse)
    (hmiss : EntryCache.get c (generateCacheKey r) = none)
    (hstream : EntryCache.getStream c (generateCacheKey r) = none) :
    handle c r none up =
      (if 200 ≤ up.Code ∧ up.Code < 300 then
          EntryCache.set c (generateCacheKey r)
            { body := up.Body, headers := cachedHeaders up.Headers }
        else c,
       { status := up.Code, headers := up.Headers, body := up.Body,
         usedUpstream := true, setMissHeader := false }) := by
  simp [handle, hmiss, hstream, ioReadAll_ok]

/-- Evaluation of the dispatcher on the buffered-hit path. -/
theorem handle_hit_eq (c : EntryCache) (r : Request) (up : UpstreamResponse)
    (entry : CacheEntry)
    (hhit : EntryCache.get c (generateCacheKey r) = some entry) :
    handle c r none up =
      (c, { status := 200,
            headers := addAll (hset [] "model-proxy-cache" "hit") entry.headers,
            body := entry.body,
            usedUpstream := false, setMissHeader := false }) := by
  simp [handle, hhit]

/-- Erasing another key leaves a lookup unchanged. -/
theorem hget_herase_ne (h : Headers) (k k' : String) (hne : k' ≠ k) :
    hget (herase h k') k = hget h k := by
  induction h with
  | nil => rfl
  | cons p rest ih =>
      obtain ⟨pk, pv⟩ := p
      by_cases hp : pk = k'
      · subst hp
        simp [herase, hget, hne, ih]
      · have hstep : herase ((pk, pv) :: rest) k' = (pk, pv) :: herase rest k' := by
          simp [herase, hp]
        rw [hstep]
        by_cases hk : pk = k <;> simp [hget, hk, ih]

/-- Adding a value under another key leaves a lookup unchanged. -/
theorem hget_hadd_ne (h : Headers) (k k' v : String) (hne : k' ≠ k) :
    hget (hadd h k' v) k = hget h k := by
  simp [hadd, hget, hne, hget_herase_ne h k k' hne]

/-- The headers stored by the miss path mention only `Content-Type` and
`Content-Encoding`, so adding them never touches other keys. -/
theorem hget_addAll_cachedHeaders (w H : Headers) (k : String)
    (hct : k ≠ "Content-Type") (hce : k ≠ "Content-Encoding") :
    hget (addAll w (cachedHeaders H)) k = hget w k := by
  unfold cachedHeaders
  by_cases h1 : hGetFirst H "Content-Type" = "" <;>
    by_cases h2 : hGetFirst H "Content-Encoding" = ""
  · simp [h1, h2, addAll]
  · simp [h1, h2, addAll, hset, herase, List.filter,
      hget_hadd_ne w k "Content-Encoding" _ (Ne.symm hce)]
  · simp [h1, h2, addAll, hset, herase, List.filter,
      hget_hadd_ne w k "Content-Type" _ (Ne.symm hct)]
  · simp only [h1, h2, if_neg, ite_false, addAll, hset, herase, List.filter]
    simp [hget_hadd_ne _ k "Content-Type" _ (Ne.symm hct),
      hget_hadd_ne w k "Content-Encoding" _ (Ne.symm hce)]

/-- The dispatcher never writes to the stream map. -/
theorem handle_fst_streams (c : EntryCache) (r : Request) (pe : Option Bytes)
    (up : UpstreamResponse) : (handle c r pe up).1.streams = c.streams := by
  cases pe with
  | some msg => rfl
  | none =>
      cases hg : EntryCache.get c (generateCacheKey r) with
      | some e => simp [handle, hg]
      | none =>
          cases hs : EntryCache.getStream c (generateCacheKey r) with
          | some st => simp [handle, hg, hs]
          | none =>
              by_cases hc : 200 ≤ up.Code ∧ up.Code < 300 <;>
                simp [handle, hg, hs, ioReadAll_ok, hc, EntryCache.set]

/-- Folding dispatcher steps never changes the stream map. -/
theorem foldl_handleStep_streams (inputs : List HandlerInput) :
    ∀ (c : EntryCache), (inputs.foldl handleStep c).streams = c.streams := by
  induction inputs with
  | nil => intro c; rfl
  | cons i rest ih =>
      intro c
      rw [List.foldl_cons]
      exact (ih (handleStep c i)).trans (handle_fst_streams c i.req i.proxyErr i.up)

/-- Characterization of a producer history run against a fresh pipe. -/
theorem foldl_applyOp_spec (ops : List cache.StreamOp) :
    ∀ (s : cache.StreamResponse),
      (ops.foldl cache.applyOp s).buffer =
        s.buffer ++ (if s.closed then [] else cache.openWrites ops) ∧
      (ops.foldl cache.applyOp s).closed = (s.closed || ops.any cache.isClose) := by
  induction ops with
  | nil =>
      intro s
      cases hc : s.closed <;> simp [hc, cache.openWrites]
  | cons op rest ih =>
      intro s
      cases op with
      | write c =>
          cases hc : s.closed
          · have h := ih { s with buffer := s.buffer ++ [c] }
            simpa [cache.applyOp, cache.StreamResponse.WriteChunk, hc,
              cache.openWrites, cache.isClose, List.append_assoc] using h
          · have h := ih s
            simpa [cache.applyOp, cache.StreamResponse.WriteChunk, hc,
              cache.openWrites, cache.isClose] using h
      | close =>
          cases hc : s.closed
          · have h := ih { s with closed := true }
            simpa [cache.applyOp, cache.StreamResponse.Close, hc,
              cache.openWrites, cache.isClose] using h
          · have h := ih s
            simpa [cache.applyOp, cache.StreamResponse.Close, hc,
              cache.openWrites, cache.isClose] using h

/-- A fresh pipe after a producer history: the buffer holds exactly the
chunks written before the first close, and the pipe is closed exactly when
the history contains a close. -/
theorem runOps_spec (n : Nat) (ops : List cache.StreamOp) :
    (cache.runOps n ops).buffer = cache.openWrites ops ∧
    (cache.runOps n ops).closed = ops.any cache.isClose := by
  have h := foldl_applyOp_spec ops (cache.NewStreamResponse n)
  simpa [cache.runOps, cache.NewStreamResponse] using h

/-! ## Claims -/

/-- C1 (amended): identical `(credential, path, body)` triples give identical
keys, and triples differing in exactly one component feed different byte
streams to SHA-256, hence different keys up to hash collision.  (Triples
differing in more than one component can collide with certainty; see the
counterexample.) -/
theorem generateCacheKey_single_component (a p b a' p' b' : Bytes) :
    (a = a' → p = p' → b = b' →
      generateCacheKey ⟨a, p, b⟩ = generateCacheKey ⟨a', p', b'⟩) ∧
    (a ≠ a' → p = p' → b = b' → hashInput a p b ≠ hashInput a' p' b') ∧
    (a = a' → p ≠ p' → b = b' → hashInput a p b ≠ hashInput a' p' b') ∧
    (a = a' → p = p' → b ≠ b' → hashInput a p b ≠ hashInput a' p' b') := by
  refine ⟨?_, ?_, ?_, ?_⟩
  · rintro rfl rfl rfl; rfl
  · rintro hne rfl rfl hcontra
    rw [hashInput_eq_append, hashInput_eq_append] at hcontra
    exact hne (List.append_cancel_right (List.append_cancel_right hcontra))
  · rintro rfl hne rfl hcontra
    rw [hashInput_eq_append, hashInput_eq_append] at hcontra
    exact hne (List.append_cancel_left (List.append_cancel_right hcontra))
  · rintro rfl rfl hne hcontra
    rw [hashInput_eq_append, hashInput_eq_append] at hcontra
    exact hne (List.append_cancel_left hcontra)

/-- C1 witness: the amended theorem at concrete single-component changes. -/
theorem generateCacheKey_single_component_witness :
    hashInput [1] [3] [] ≠ hashInput [2] [3] [] ∧
    hashInput [1] [3] [] ≠ hashInput [1] [4] [] ∧
    hashInput [1] [3] [7] ≠ hashInput [1] [3] [8] ∧
    generateCacheKey ⟨[1], [3], []⟩ = generateCacheKey ⟨[1], [3], []⟩ :=
  ⟨(generateCacheKey_single_component [1] [3] [] [2] [3] []).2.1 (by decide) rfl rfl,
   (generateCacheKey_single_component [1] [3] [] [1] [4] []).2.2.1 rfl (by decide) rfl,
   (generateCacheKey_single_component [1] [3] [7] [1] [3] [8]).2.2.2 rfl rfl (by decide),
   (generateCacheKey_single_component [1] [3] [] [1] [3] []).1 rfl rfl rfl⟩

/-- C1 counterexample: the credential, path and body are concatenated with no
separator before hashing, so the distinct triples `("ab", "c", "d")` and
`("a", "bc", "d")` feed the identical byte stream to the hash and receive
the identical key with certainty — not merely with collision probability. -/
theorem generateCacheKey_distinct_triples_equal_key :
    Request.mk [97, 98] [99] [100] ≠ Request.mk [97] [98, 99] [100] ∧
    generateCacheKey (Request.mk [97, 98] [99] [100]) =
      generateCacheKey (Request.mk [97] [98, 99] [100]) := by
  constructor
  · decide
  · show hexEncode (SHA256.sum256 (hashInput [97, 98] [99] [100])) =
        hexEncode (SHA256.sum256 (hashInput [97] [98, 99] [100]))
    have h : hashInput [97, 98] [99] [100] = hashInput [97] [98, 99] [100] := by decide
    rw [h]

/-- C7: `Set` then `Get` at the same key returns the value just written, and
a second `Set` fully replaces it — last write wins, no stale read, no merge. -/
theorem responseCache_set_get_last_write_wins (c : cache.ResponseCache)
    (k v v2 : Bytes) :
    (c.Set k v).Get k = some v ∧ ((c.Set k v).Set k v2).Get k = some v2 := by
  constructor <;> simp [cache.ResponseCache.Set, cache.ResponseCache.Get]

/-- C4: for every producer history against a fresh pipe: a `WriteChunk`
after close leaves the pipe unchanged (no fault, chunk discarded), the
buffered chunks are exactly those written before the first close in write
order, and draining terminates (yielding exactly those chunks) precisely
when the pipe has been closed. -/
theorem streamResponse_write_close_drain (n : Nat) (ops : List cache.StreamOp)
    (c : Bytes) :
    ((cache.runOps n ops).closed = true →
      (cache.runOps n ops).WriteChunk c = cache.runOps n ops) ∧
    (cache.runOps n ops).buffer = cache.openWrites ops ∧
    (cache.runOps n ops).drain =
      (if (cache.runOps n ops).closed then some (cache.openWrites ops) else none) := by
  obtain ⟨hbuf, hcl⟩ := runOps_spec n ops
  refine ⟨?_, hbuf, ?_⟩
  · intro hc
    simp [cache.StreamResponse.WriteChunk, hc]
  · rw [cache.StreamResponse.drain, hbuf]

/-- C4 witness: a chunk written after close is absent from the drained
sequence, and the late write leaves the pipe unchanged. -/
theorem streamResponse_write_close_drain_witness :
    (cache.runOps 2 [.write [97], .close, .write [98]]).drain = some [[97]] ∧
    (cache.runOps 2 [.write [97], .close]).WriteChunk [98] =
      cache.runOps 2 [.write [97], .close] := by
  constructor
  · rw [(streamResponse_write_close_drain 2 [.write [97], .close, .write [98]] [98]).2.2]
    decide
  · exact (streamResponse_write_close_drain 2 [.write [97], .close] [98]).1 (by decide)

/-- C8 counterexample: the cache's own operations do not maintain the
exclusivity invariant — `Set` then `SetStream` at the same key leaves both
maps populated for it. -/
theorem responseCache_both_maps_populated :
    (((cache.NewResponseCache.Set [107] [1, 2]).SetStream [107] 4).1.Get [107]
        = some [1, 2]) ∧
    ((((cache.NewResponseCache.Set [107] [1, 2]).SetStream [107] 4).1.GetStream
        [107]).isSome = true) := by
  constructor <;> rfl

/-- C8 (amended): the exclusivity of the two maps is not enforced by the
cache operations themselves; it holds in the program as written only because
the dispatcher never calls `SetStream`, so in every reachable dispatcher
state the stream map is empty and hence at most one map is populated per key. -/
theorem dispatcher_trace_exclusive (inputs : List HandlerInput) (k : Bytes) :
    (runHandlers inputs).nonStreams k = none ∨ (runHandlers inputs).streams k = none := by
  right
  unfold runHandlers
  rw [foldl_handleStep_streams inputs NewEntryCache]
  rfl

/-- C9: in every dispatcher-reachable cache state the stream map is empty,
so the handler's `GetStream` lookup never finds an entry and every cached
response lives in the buffered map. -/
theorem dispatcher_trace_streams_empty (inputs : List HandlerInput) (k : Bytes) :
    (runHandlers inputs).streams k = none ∧
    EntryCache.getStream (runHandlers inputs) k = none := by
  have h : (runHandlers inputs).streams k = none := by
    unfold runHandlers
    rw [foldl_handleStep_streams inputs NewEntryCache]
    rfl
  exact ⟨h, h⟩

/-- The dispatcher reaches the line setting `model-proxy-cache: miss` in no
branch of any invocation. -/
theorem handle_setMissHeader (c : EntryCache) (r : Request) (pe : Option Bytes)
    (up : UpstreamResponse) : (handle c r pe up).2.setMissHeader = false := by
  cases pe with
  | some msg => rfl
  | none =>
      cases hg : EntryCache.get c (generateCacheKey r) with
      | some e => simp [handle, hg]
      | none =>
          cases hs : EntryCache.getStream c (generateCacheKey r) with
          | some st => simp [handle, hg, hs]
          | none =>
              by_cases hc : 200 ≤ up.Code ∧ up.Code < 300 <;>
                simp [handle, hg, hs, ioReadAll_ok, hc]

/-- C3: on the miss path, a cache entry is written exactly for success
status codes, and a non-2xx upstream response leaves the cache exactly as it
was. -/
theorem cache_store_iff_success (c : EntryCache) (r : Request) (up : UpstreamResponse)
    (hmiss : EntryCache.get c (generateCacheKey r) = none)
    (hstream : EntryCache.getStream c (generateCacheKey r) = none) :
    (200 ≤ up.Code ∧ up.Code < 300 →
      (handle c r none up).1 =
        EntryCache.set c (generateCacheKey r)
          { body := up.Body, headers := cachedHeaders up.Headers }) ∧
    (¬(200 ≤ up.Code ∧ up.Code < 300) → (handle c r none up).1 = c) := by
  rw [handle_miss_eq c r up hmiss hstream]
  constructor <;> intro h <;> simp [h]

/-- C3 witness: a 201 response is stored, a 500 response stores nothing. -/
theorem cache_store_iff_success_witness :
    (handle NewEntryCache ⟨[], [47], [104]⟩ none ⟨201, [], [5, 6]⟩).1 =
      EntryCache.set NewEntryCache (generateCacheKey ⟨[], [47], [104]⟩)
        { body := [5, 6], headers := cachedHeaders [] } ∧
    (handle NewEntryCache ⟨[], [47], [104]⟩ none ⟨500, [], [5, 6]⟩).1 = NewEntryCache := by
  constructor
  · exact (cache_store_iff_success NewEntryCache ⟨[], [47], [104]⟩ ⟨201, [], [5, 6]⟩
      rfl rfl).1 (by decide)
  · exact (cache_store_iff_success NewEntryCache ⟨[], [47], [104]⟩ ⟨500, [], [5, 6]⟩
      rfl rfl).2 (by decide)

/-- C2 (amended): replaying an identical request after a successful,
cache-populating first call returns the byte-identical body with
`model-proxy-cache: hit` without invoking the upstream again — but with
status 200 regardless of the original status and only the stored
`Content-Type`/`Content-Encoding` headers; on the miss the marker header is
absent (provided the upstream did not inject one itself). -/
theorem cache_replay_amended (c : EntryCache) (r : Request) (up up2 : UpstreamResponse)
    (hmiss : EntryCache.get c (generateCacheKey r) = none)
    (hstream : EntryCache.getStream c (generateCacheKey r) = none)
    (hcode : 200 ≤ up.Code ∧ up.Code < 300)
    (hup : hget up.Headers "model-proxy-cache" = []) :
    (handle c r none up).2.status = up.Code ∧
    (handle c r none up).2.body = up.Body ∧
    hget (handle c r none up).2.headers "model-proxy-cache" = [] ∧
    (handle c r none up).2.usedUpstream = true ∧
    (handle (handle c r none up).1 r none up2).2.status = 200 ∧
    (handle (handle c r none up).1 r none up2).2.body = up.Body ∧
    hget (handle (handle c r none up).1 r none up2).2.headers "model-proxy-cache"
      = ["hit"] ∧
    (handle (handle c r none up).1 r none up2).2.usedUpstream = false := by
  have h1 := handle_miss_eq c r up hmiss hstream
  have hr1 : (handle c r none up).2 =
      { status := up.Code, headers := up.Headers, body := up.Body,
        usedUpstream := true, setMissHeader := false } := by
    rw [h1]
  have hc1 : (handle c r none up).1 =
      EntryCache.set c (generateCacheKey r)
        { body := up.Body, headers := cachedHeaders up.Headers } := by
    rw [h1, if_pos hcode]
  have h2 := handle_hit_eq
    (EntryCache.set c (generateCacheKey r)
      { body := up.Body, headers := cachedHeaders up.Headers }) r up2
    { body := up.Body, headers := cachedHeaders up.Headers }
    (EntryCache.get_set_self _ _ _)
  refine ⟨by rw [hr1], by rw [hr1], by rw [hr1]; exact hup, by rw [hr1],
    by rw [hc1, h2], by rw [hc1, h2], ?_, by rw [hc1, h2]⟩
  rw [hc1, h2]
  show hget (addAll (hset [] "model-proxy-cache" "hit")
    (cachedHeaders up.Headers)) "model-proxy-cache" = ["hit"]
  rw [hget_addAll_cachedHeaders (hset [] "model-proxy-cache" "hit") up.Headers
    "model-proxy-cache" (by decide) (by decide)]
  decide

/-- C2 witness: the amended replay theorem at a concrete 200 response. -/
theorem cache_replay_amended_witness :
    (handle NewEntryCache ⟨[], [47], [104, 105]⟩ none ⟨200, [], [111, 107]⟩).2.status = 200 ∧
    (handle NewEntryCache ⟨[], [47], [104, 105]⟩ none ⟨200, [], [111, 107]⟩).2.body = [111, 107] ∧
    hget (handle NewEntryCache ⟨[], [47], [104, 105]⟩ none
      ⟨200, [], [111, 107]⟩).2.headers "model-proxy-cache" = [] ∧
    (handle NewEntryCache ⟨[], [47], [104, 105]⟩ none ⟨200, [], [111, 107]⟩).2.usedUpstream = true ∧
    (handle (handle NewEntryCache ⟨[], [47], [104, 105]⟩ none ⟨200, [], [111, 107]⟩).1
      ⟨[], [47], [104, 105]⟩ none ⟨500, [], []⟩).2.status = 200 ∧
    (handle (handle NewEntryCache ⟨[], [47], [104, 105]⟩ none ⟨200, [], [111, 107]⟩).1
      ⟨[], [47], [104, 105]⟩ none ⟨500, [], []⟩).2.body = [111, 107] ∧
    hget (handle (handle NewEntryCache ⟨[], [47], [104, 105]⟩ none ⟨200, [], [111, 107]⟩).1
      ⟨[], [47], [104, 105]⟩ none ⟨500, [], []⟩).2.headers "model-proxy-cache" = ["hit"] ∧
    (handle (handle NewEntryCache ⟨[], [47], [104, 105]⟩ none ⟨200, [], [111, 107]⟩).1
      ⟨[], [47], [104, 105]⟩ none ⟨500, [], []⟩).2.usedUpstream = false :=
  cache_replay_amended NewEntryCache ⟨[], [47], [104, 105]⟩ ⟨200, [], [111, 107]⟩
    ⟨500, [], []⟩ rfl rfl (by decide) rfl

/-- C2 counterexample: a cached 201 response with an `X-Foo` header is
replayed with status 200 and without `X-Foo` — the second, cache-hit
response does not carry the original status code and headers. -/
theorem cache_replay_counterexample :
    replayOnce.2.status = 201 ∧
    hget replayOnce.2.headers "X-Foo" = ["bar"] ∧
    replayTwice.2.body = replayOnce.2.body ∧
    hget replayTwice.2.headers "model-proxy-cache" = ["hit"] ∧
    replayTwice.2.status = 200 ∧
    hget replayTwice.2.headers "X-Foo" = [] := by
  have h1 := handle_miss_eq NewEntryCache replayReq replayUp rfl rfl
  have hr1 : replayOnce.2 =
      { status := replayUp.Code, headers := replayUp.Headers, body := replayUp.Body,
        usedUpstream := true, setMissHeader := false } := by
    unfold replayOnce
    rw [h1]
  have hc1 : replayOnce.1 =
      EntryCache.set NewEntryCache (generateCacheKey replayReq)
        { body := replayUp.Body, headers := cachedHeaders replayUp.Headers } := by
    unfold replayOnce
    rw [h1, if_pos (by decide)]
  have h2 := handle_hit_eq
    (EntryCache.set NewEntryCache (generateCacheKey replayReq)
      { body := replayUp.Body, headers := cachedHeaders replayUp.Headers })
    replayReq replayUp
    { body := replayUp.Body, headers := cachedHeaders replayUp.Headers }
    (EntryCache.get_set_self _ _ _)
  have hr2 : replayTwice.2 =
      { status := 200,
        headers := addAll (hset [] "model-proxy-cache" "hit")
          (cachedHeaders replayUp.Headers),
        body := replayUp.Body, usedUpstream := false, setMissHeader := false } := by
    unfold replayTwice
    rw [hc1, h2]
  refine ⟨by rw [hr1]; rfl, by rw [hr1]; decide, by rw [hr2, hr1], ?_,
    by rw [hr2], ?_⟩
  · rw [hr2]
    show hget (addAll (hset [] "model-proxy-cache" "hit")
      (cachedHeaders replayUp.Headers)) "model-proxy-cache" = ["hit"]
    rw [hget_addAll_cachedHeaders (hset [] "model-proxy-cache" "hit")
      replayUp.Headers "model-proxy-cache" (by decide) (by decide)]
    decide
  · rw [hr2]
    decide

/-- C5 (in the source, a bug): at the streaming scenario — an inbound
request accepting `text/event-stream` whose upstream emits chunks
`a`, `b`, `c` and whose body, like every standard-transport response body,
does not implement `http.Flusher` — the interceptor's round trip returns
the error `io.EOF`, so the proxy answers 502 and the client observes none
of the chunks, incrementally or otherwise. -/
theorem roundTrip_streaming_scenario_fails :
    RoundTrip (Except.ok ⟨⟨[[97], [98], [99]], false⟩⟩) "text/event-stream" =
      Except.error GoErr.eof := rfl

/-- C6 counterexample: the round trip succeeds whenever the upstream body
implements `http.Flusher`, whatever the downstream writer supports — the
downstream writer is not an input of `RoundTrip` at all, so an event-stream
request whose downstream writer cannot flush does not make the round trip
fail. -/
theorem roundTrip_flusher_body_ok :
    RoundTrip (Except.ok ⟨⟨[[97]], true⟩⟩) "text/event-stream" =
      Except.ok (WrappedBody.sse ⟨[[97]], true⟩) := rfl

/-- C6 (amended): for an event-stream request, the interceptor's round trip
fails (with `io.EOF`, not an unsupported-operation error) precisely when the
upstream response body does not implement `http.Flusher`; the downstream
writer's flushing support is never consulted. -/
theorem roundTrip_eof_iff_body_not_flusher (resp : TransportResponse) (accept : String)
    (hsse : accept = "text/event-stream") :
    RoundTrip (Except.ok resp) accept = Except.error GoErr.eof ↔
      resp.body.isFlusher = false := by
  subst hsse
  by_cases hf : resp.body.isFlusher <;> simp [RoundTrip, hf]

/-- C6 witness: the amended theorem at a concrete non-flusher body. -/
theorem roundTrip_eof_iff_body_not_flusher_witness :
    RoundTrip (Except.ok ⟨⟨[], false⟩⟩) "text/event-stream" = Except.error GoErr.eof ↔
      (⟨⟨[], false⟩⟩ : TransportResponse).body.isFlusher = false :=
  roundTrip_eof_iff_body_not_flusher ⟨⟨[], false⟩⟩ "text/event-stream" rfl

/-- C10: reading the recorded response body back from the in-memory buffer
always succeeds, so the branch that sets `model-proxy-cache: miss` — the
only place that header value is ever produced — is never executed. -/
theorem recorder_read_never_errors (b : Bytes) (c : EntryCache) (r : Request)
    (pe : Option Bytes) (up : UpstreamResponse) :
    ioReadAll b = Except.ok b ∧ (handle c r pe up).2.setMissHeader = false :=
  ⟨ioReadAll_ok b, handle_setMissHeader c r pe up⟩

end ModelProxy
